import Mathlib

/-!
Verification development for the svfs filesystem adapter layer.

The definitions below are a shallow embedding of the Go sources:
* `handle.go` — the `ObjectHandle` read/write/release engine (`handleRead`,
  `handleWrite`, `truncateFn`, `moveToSegment`, `release`);
* `directory.go` — `Directory` node operations (`readDirAll`, `dirLookup`,
  `dirMkdir`, `dirRemove`, `removeDirectory`, `removeObject`, `dirMove`,
  `dirRename`);
* `object.go` — the `Object` node state.

Backend calls are modelled by a trace of `BackendOp` events together with an
explicit object store (a list of `(container, objectName)` pairs).  Fallible
backend calls are resolved by an explicit `Env` record that fixes, for one
operation, the outcome of each backend request (`none` = success).  Helper
functions of the repository whose sources are not available (the directory
cache, the change cache, `segmentPath`, `initSegment`, `createManifest`,
`deleteSegments`, `newWriter`, `newReader`, `updateHeaders`, and the listing
classification predicates) are modelled from the specification; each such
definition carries a doc comment starting with "Modelled from the spec".
-/

namespace Svfs

/-- Header name `X-Object-Manifest` (object.go). -/
def ManifestHeader : String := "X-Object-Manifest"

/-- Content type marking an explicit directory object (directory.go). -/
def DirContentType : String := "application/directory"

/-- Content type marking a symbolic link object (directory.go). -/
def LinkContentType : String := "application/link"

/-- Headers: a finite association list from header name to value. -/
abbrev Headers := List (String × String)

/-- Header lookup; absent headers read as the empty string (Go map semantics). -/
def hGet (h : Headers) (k : String) : String :=
  match h.find? (fun p => p.1 == k) with
  | some p => p.2
  | none => ""

/-- Header removal (Go `delete(m, k)`). -/
def hDel (h : Headers) (k : String) : Headers :=
  h.filter (fun p => !(p.1 == k))

/-- Header presence test. -/
def hHas (h : Headers) (k : String) : Bool :=
  h.any (fun p => p.1 == k)

/-- List-level prefix test (executable, kernel-reducible). -/
def listIsPre : List Char → List Char → Bool
  | [], _ => true
  | _ :: _, [] => false
  | a :: as, b :: bs => a == b && listIsPre as bs

/-- String prefix test on the character lists. -/
def strIsPre (pre s : String) : Bool :=
  listIsPre pre.data s.data

/-- String suffix test on the character lists. -/
def strIsSuf (suf s : String) : Bool :=
  listIsPre suf.data.reverse s.data.reverse

/-- Drop the first `n` characters. -/
def strDrop (s : String) (n : Nat) : String :=
  { data := s.data.drop n }

/-- Drop the last `n` characters. -/
def strDropRight (s : String) (n : Nat) : String :=
  { data := s.data.take (s.data.length - n) }

/-- Character count. -/
def strLen (s : String) : Nat :=
  s.data.length

/-- Go `strings.TrimPrefix`. -/
def trimPre (s pre : String) : String :=
  if strIsPre pre s then strDrop s (strLen pre) else s

/-- Go `strings.TrimSuffix`. -/
def trimSuf (s suf : String) : String :=
  if strIsSuf suf s then strDropRight s (strLen suf) else s

/-- Whether `SegmentPathRegex = ^([^/]+)/(.*)$` (directory.go) matches `s`:
the first character exists and is not a slash, and a slash occurs later. -/
def segmentPathRegexMatch (s : String) : Bool :=
  match s.data with
  | [] => false
  | c :: rest => !(c == '/') && rest.contains '/'

/-- Modelled from the spec: the manifest header value has the shape
"container/prefix"; recover the prefix by trimming the
container name and the separating slash (used by `deleteSegments`). -/
def manifestPfx (container manifestValue : String) : String :=
  trimPre manifestValue (container ++ "/")

/-- A backend list entry / store object as returned by `ObjectsAll`. -/
structure SwiftObj where
  name : String
  bytes : Int
  contentType : String
  pseudoDirectory : Bool
  deriving Repr, DecidableEq, Inhabited

/-- State of an `Object` node (object.go): the node's name and path, its
backing store object name and byte count, its headers, the data and the
segments container names, and the `segmented`/`writing` flags. -/
structure ObjState where
  name : String
  path : String
  soName : String
  soBytes : Int
  sh : Headers
  cName : String
  csName : String
  segmented : Bool
  writing : Bool
  deriving Repr, DecidableEq, Inhabited

/-- State of a `Directory` node (directory.go). -/
structure DirState where
  name : String
  path : String
  soName : String
  cName : String
  csName : String
  deriving Repr, DecidableEq, Inhabited

/-- State of a `Symlink` node. -/
structure LinkState where
  name : String
  path : String
  cName : String
  deriving Repr, DecidableEq, Inhabited

/-- The polymorphic node sum cached by the directory cache. -/
inductive Node where
  | dir (d : DirState)
  | obj (o : ObjState)
  | link (l : LinkState)
  deriving Repr, DecidableEq, Inhabited

/-- Direntry type tag. -/
inductive DType where
  | dir
  | file
  | link
  deriving Repr, DecidableEq, Inhabited

/-- A direntry as emitted to the kernel. -/
structure Dirent where
  name : String
  dtype : DType
  deriving Repr, DecidableEq, Inhabited

/-- `Node.Export`: the direntry of a node. -/
def nodeExport : Node → Dirent
  | .dir d => { name := d.name, dtype := .dir }
  | .obj o => { name := o.name, dtype := .file }
  | .link l => { name := l.name, dtype := .link }

/-- `Node.Name`. -/
def nodeName : Node → String
  | .dir d => d.name
  | .obj o => o.name
  | .link l => l.name

/-- Trace events: one per backend request or modelled helper call issued by an
operation, in issue order. -/
inductive BackendOp where
  | objectPutBytes (container path contentType : String)
  | objectsAll (container pathPre : String)
  | objectHead (container path : String)
  | objectMove (srcContainer srcPath dstContainer dstPath : String)
  | manifestCopy (srcContainer srcPath dstContainer dstPath : String)
  | objectDelete (container path : String)
  | deleteSegmentsOp (container manifestValue : String)
  | createManifest (container manifestValue path : String)
  | newWriter (container path : String)
  | newReaderOp (container path : String)
  | initSegment (container segmentName : String) (data : List Nat)
  | wdWrite (data : List Nat)
  | writeBackHeaders (container path nonce : String)
  deriving Repr, DecidableEq, Inhabited

/-- Environment of one operation: configuration read at call time plus the
outcome of each fallible backend call (`none` = the call succeeds). -/
structure Env where
  now : Nat
  segmentSize : Nat
  encryption : Bool
  extraAttr : Bool
  listing : List SwiftObj
  listErr : Option String
  headHeaders : Headers
  headErr : Option String
  putErr : Option String
  objectMoveErr : Option String
  manifestCopyErr : Option String
  objectDeleteFails : Bool
  deleteSegmentsErr : Option String
  newWriterErr : Option String
  initSegmentErr : Option String
  wdWriteErr : Option String
  updateHeadersErr : Option String
  newReaderContent : List Nat
  newReaderErr : Option String
  deriving Repr, DecidableEq, Inhabited

/-- Modelled from the spec: one directory-cache entry, the parent node and the
children map `childName → childNode`. -/
structure CacheEntry where
  parent : Option Node
  children : List (String × Node)
  deriving Repr, DecidableEq, Inhabited

/-- Modelled from the spec: the directory cache, a two-level mapping
`(container, parentPath) → (parentNode, children)`. -/
abbrev Cache := List ((String × String) × CacheEntry)

/-- Children-map lookup by name. -/
def assocGet (l : List (String × Node)) (k : String) : Option Node :=
  match l.find? (fun e => e.1 == k) with
  | some e => some e.2
  | none => none

/-- Children-map insertion by name (replaces an existing binding). -/
def assocSet (l : List (String × Node)) (k : String) (v : Node) : List (String × Node) :=
  (k, v) :: l.filter (fun e => !(e.1 == k))

/-- Cache entry lookup for `(container, path)`. -/
def cacheFind (c : Cache) (co p : String) : Option CacheEntry :=
  match c.find? (fun kv => kv.1.1 == co && kv.1.2 == p) with
  | some kv => some kv.2
  | none => none

/-- Modelled from the spec: `Peek` — non-loading existence check. -/
def cachePeek (c : Cache) (co p : String) : Bool :=
  (cacheFind c co p).isSome

/-- Removal of the whole entry for `(container, path)` (`DeleteAll`). -/
def cacheErase (c : Cache) (co p : String) : Cache :=
  c.filter (fun kv => !(kv.1.1 == co && kv.1.2 == p))

/-- Modelled from the spec: `Set` — insert a child, creating the entry if
absent and never losing a previously recorded parent node. -/
def cacheSet (c : Cache) (co p name : String) (n : Node) : Cache :=
  let e := (cacheFind c co p).getD { parent := none, children := [] }
  ((co, p), { e with children := assocSet e.children name n }) :: cacheErase c co p

/-- Modelled from the spec: `Get` — single-child lookup. -/
def cacheGet (c : Cache) (co p name : String) : Option Node :=
  match cacheFind c co p with
  | some e => assocGet e.children name
  | none => none

/-- Modelled from the spec: `Delete` — remove a single child from an entry. -/
def cacheDelete (c : Cache) (co p name : String) : Cache :=
  c.map (fun kv =>
    if kv.1.1 == co && kv.1.2 == p then
      (kv.1, { kv.2 with children := kv.2.children.filter (fun e => !(e.1 == name)) })
    else kv)

/-- Modelled from the spec: `AddAll` — install/replace the full entry. -/
def cacheAddAll (c : Cache) (co p : String) (parent : Node) (children : List (String × Node)) :
    Cache :=
  ((co, p), { parent := some parent, children := children }) :: cacheErase c co p

/-- Modelled from the spec: the change cache, a registry
`(container, path) → Object` of objects with an open write handle. -/
abbrev ChangeCache := List ((String × String) × Node)

/-- Modelled from the spec: change-cache existence check (`Exist`). -/
def ccExist (cc : ChangeCache) (co p : String) : Bool :=
  cc.any (fun kv => kv.1.1 == co && kv.1.2 == p)

/-- Modelled from the spec: change-cache lookup (`Get`). -/
def ccGet (cc : ChangeCache) (co p : String) : Option Node :=
  match cc.find? (fun kv => kv.1.1 == co && kv.1.2 == p) with
  | some kv => some kv.2
  | none => none

/-- Modelled from the spec: change-cache removal (`Remove`). -/
def ccRemove (cc : ChangeCache) (co p : String) : ChangeCache :=
  cc.filter (fun kv => !(kv.1.1 == co && kv.1.2 == p))

/-- The backend object store: the set of `(container, objectName)` pairs that
currently exist, as a list. -/
abbrev Store := List (String × String)

/-- Object creation in the store (idempotent PUT). -/
def storeAdd (s : Store) (c p : String) : Store :=
  if s.any (fun e => e.1 == c && e.2 == p) then s else (c, p) :: s

/-- Object deletion in the store. -/
def storeDel (s : Store) (c p : String) : Store :=
  s.filter (fun e => !(e.1 == c && e.2 == p))

/-- Modelled from the spec: `deleteSegments(container, manifestValue)` —
enumerate and delete from the segments container every object whose name
shares the manifest prefix. -/
def deleteSegmentsStore (s : Store) (container manifestValue : String) : Store :=
  s.filter (fun e => !(e.1 == container && strIsPre (manifestPfx container manifestValue) e.2))

/-- State of an `ObjectHandle` (handle.go) together with its target object.
The reader is `(content, position)` when open. -/
structure HandleState where
  target : ObjState
  rd : Option (List Nat × Nat)
  wdOpen : Bool
  create : Bool
  truncated : Bool
  nonce : String
  wroteSegment : Bool
  segmentID : Nat
  uploaded : Nat
  segPfx : String
  segPath : String
  deriving Repr, DecidableEq, Inhabited

/-- Modelled from the spec: `segmentPath(prefix, id)` — the deterministic path
of segment `id` under a segment prefix. -/
def segmentPathFn (pfx : String) (id : Nat) : String :=
  pfx ++ "/" ++ toString id

/-- `ObjectHandle.moveToSegment` (handle.go): close the current writer,
compute the segment prefix from the target path and the current unix epoch,
move the bytes already uploaded to the segments container, create the
manifest and mark the target segmented. -/
def moveToSegment (env : Env) (fh0 : HandleState) :
    Except String (HandleState × List BackendOp) :=
  let fh := { fh0 with wdOpen := false }
  let pfx := fh.target.path ++ "/" ++ toString env.now
  let sp := segmentPathFn pfx fh.segmentID
  let fh := { fh with segPfx := pfx, segPath := sp }
  match env.objectMoveErr with
  | some e => .error e
  | none =>
    .ok ({ fh with wroteSegment := true,
                   target := { fh.target with segmented := true } },
         [.objectMove fh.target.cName fh.target.path fh.target.csName sp,
          .createManifest fh.target.cName (fh.target.csName ++ "/" ++ pfx) fh.target.path])

/-- `ObjectHandle.truncate` (handle.go): delete the referenced segments if the
target is segmented, drop the manifest header, clear the segmented flag,
reset the reported size and reopen a writer at the target store-object
name. -/
def truncateFn (env : Env) (fh0 : HandleState) :
    Except String (HandleState × List BackendOp) :=
  let step1 : Except String (HandleState × List BackendOp) :=
    if fh0.target.segmented then
      match env.deleteSegmentsErr with
      | some e => .error e
      | none =>
        .ok ({ fh0 with target := { fh0.target with
                          sh := hDel fh0.target.sh ManifestHeader, segmented := false } },
             [.deleteSegmentsOp fh0.target.csName (hGet fh0.target.sh ManifestHeader)])
    else .ok (fh0, [])
  match step1 with
  | .error e => .error e
  | .ok (fh, tr) =>
    match env.newWriterErr with
    | some e => .error e
    | none =>
      .ok ({ fh with truncated := true, wdOpen := true,
                     target := { fh.target with soBytes := 0 } },
           tr ++ [.newWriter fh.target.cName fh.target.soName])

/-- Mark the target as being written (first line of `ObjectHandle.Write`). -/
def setWriting (fh : HandleState) : HandleState :=
  { fh with target := { fh.target with writing := true } }

/-- The truncation step of `ObjectHandle.Write`: truncate unless the handle
was opened with create or has already truncated. -/
def writeTruncStep (env : Env) (fh : HandleState) :
    Except String (HandleState × List BackendOp) :=
  if !fh.create && !fh.truncated then truncateFn env fh else .ok (fh, [])

/-- `ObjectHandle.Write` (handle.go): mark writing, truncate if needed, then
either append to the current writer (data fits in the current segment) or
move the current object to the segments container (first overflow) and open
the next segment with the data. Returns the new handle state, the backend
trace and the reported response size. -/
def handleWrite (env : Env) (fh0 : HandleState) (data : List Nat) :
    Except String (HandleState × List BackendOp × Nat) :=
  match writeTruncStep env (setWriting fh0) with
  | .error e => .error e
  | .ok (fh, tr0) =>
    if fh.uploaded + data.length ≤ env.segmentSize then
      match env.wdWriteErr with
      | some e => .error e
      | none =>
        .ok ({ fh with uploaded := fh.uploaded + data.length,
                       target := { fh.target with soBytes := fh.target.soBytes + data.length } },
             tr0 ++ [.wdWrite data], data.length)
    else
      match (if fh.wroteSegment then Except.ok (fh, ([] : List BackendOp))
             else moveToSegment env fh) with
      | .error e => .error e
      | .ok (fh1, tr1) =>
        let fh2 := { fh1 with wdOpen := false }
        match env.initSegmentErr with
        | some e => .error e
        | none =>
          let newID := fh2.segmentID + 1
          .ok ({ fh2 with wdOpen := true, segmentID := newID, uploaded := data.length },
               tr0 ++ tr1 ++ [.initSegment fh2.target.csName (segmentPathFn fh2.segPfx newID) data],
               data.length)

/-- `io.ReadFull` into a fresh buffer of `size` bytes: the available bytes of
`content` from `off`, the rest of the buffer left zeroed. -/
def readFullBytes (content : List Nat) (off size : Nat) : List Nat :=
  let avail := (content.drop off).take size
  avail ++ List.replicate (size - avail.length) 0

/-- `ObjectHandle.Read` (handle.go): construct the reader on first call
(`newReader`, modelled from the spec as producing the object content), seek
to the offset and fill a `size`-byte response buffer. -/
def handleRead (env : Env) (fh : HandleState) (off size : Nat) :
    Except String (HandleState × List Nat × List BackendOp) :=
  match fh.rd with
  | some (content, _) =>
    .ok ({ fh with rd := some (content, off + min size (content.length - off)) },
         readFullBytes content off size, [])
  | none =>
    match env.newReaderErr with
    | some e => .error e
    | none =>
      let content := env.newReaderContent
      .ok ({ fh with rd := some (content, off + min size (content.length - off)) },
           readFullBytes content off size,
           [.newReaderOp fh.target.cName fh.target.path])

/-- Tail of `ObjectHandle.Release`: remove the change-cache registration and
release the target mutex when the target is registered. -/
def releaseTail (fh : HandleState) (cc : ChangeCache) (mutexHeld : Bool)
    (tr : List BackendOp) :
    Option String × HandleState × ChangeCache × Bool × List BackendOp :=
  if ccExist cc fh.target.cName fh.target.path then
    (none, fh, ccRemove cc fh.target.cName fh.target.path, false, tr)
  else
    (none, fh, cc, mutexHeld, tr)

/-- `ObjectHandle.Release` (handle.go): close the reader, close the writer
(writing back the crypto headers when encryption is enabled, modelled from
the spec as a `writeBackHeaders` call), clear the writing flag, then drop
the change-cache registration and release the mutex. Go mutates in place,
so the (possibly partial) state is returned also when an error occurs. -/
def release (env : Env) (fh : HandleState) (cc : ChangeCache) (mutexHeld : Bool) :
    Option String × HandleState × ChangeCache × Bool × List BackendOp :=
  let fh1 := { fh with rd := none }
  if fh.wdOpen then
    let fh2 := { fh1 with wdOpen := false }
    if env.encryption then
      match env.updateHeadersErr with
      | some e => (some e, fh2, cc, mutexHeld, [])
      | none =>
        releaseTail { fh2 with target := { fh2.target with writing := false } } cc mutexHeld
          [.writeBackHeaders fh2.target.cName fh2.target.path fh2.nonce]
    else
      releaseTail { fh2 with target := { fh2.target with writing := false } } cc mutexHeld []
  else
    releaseTail fh1 cc mutexHeld []

/-- Filesystem error codes returned to the kernel (plus backend/formatted
error passthrough). -/
inductive FsErr where
  | enoent
  | enotsup
  | eio
  | msg (s : String)
  deriving Repr, DecidableEq, Inhabited

/-- Shared mutable state touched by the directory operations: the backend
store, the directory cache and the change cache. -/
structure DirFs where
  objects : Store
  cache : Cache
  changeCache : ChangeCache
  deriving Repr, DecidableEq, Inhabited

/-- Modelled from the spec: `isSymlink` — the entry's content type is the link
content type. -/
def isSymlink (o : SwiftObj) (_p : String) : Bool :=
  o.contentType == LinkContentType

/-- Modelled from the spec: `isDirectory` — an explicit (non-synthesized)
entry under the parent carrying the directory content-type marker. -/
def isDirectory (o : SwiftObj) (p : String) : Bool :=
  o.contentType == DirContentType && !o.pseudoDirectory && !(o.name == p)

/-- Modelled from the spec: `isPseudoDirectory` — a backend-synthesized
common-prefix entry (name matching `^.+/$`) under the parent, with no
explicit marker of its own. -/
def isPseudoDirectory (o : SwiftObj) (p : String) : Bool :=
  o.pseudoDirectory && strIsSuf "/" o.name && !(o.name == p)

/-- Modelled from the spec: `isLargeObject` — a plain entry recognized as a
manifest by the size convention, needing extra header enrichment. -/
def isLargeObject (o : SwiftObj) : Bool :=
  o.bytes == 0 && !o.pseudoDirectory

/-- Accumulator of the `ReadDirAll` classification loop: the set of directory
short names seen, the direntries already emitted, the children map, and the
nodes submitted to the lister for enrichment. -/
structure RdAcc where
  dirs : List String
  direntries : List Dirent
  children : List (String × Node)
  tasks : List Node
  deriving Repr, DecidableEq, Inhabited

/-- Empty accumulator. -/
def rdInit : RdAcc := { dirs := [], direntries := [], children := [], tasks := [] }

/-- The `export:` label of `ReadDirAll`: emit the direntry and register the
child. -/
def rdExport (acc : RdAcc) (child : Node) : RdAcc :=
  { acc with direntries := acc.direntries ++ [nodeExport child],
             children := assocSet acc.children (nodeName child) child }

/-- The `finish:` label of `ReadDirAll`: with `ExtraAttr` every child goes to
the lister for enrichment, otherwise it is exported immediately. -/
def rdFinish (env : Env) (acc : RdAcc) (child : Node) : RdAcc :=
  if env.extraAttr then { acc with tasks := acc.tasks ++ [child] }
  else rdExport acc child

/-- One iteration of the `ReadDirAll` classification loop (directory.go,
`for _, object := range objects`): classify the entry as symlink, real
directory, pseudo directory (only when no directory of that short name was
recorded yet) or plain object, honouring the change-cache substitution and
the large-object enrichment. -/
def rdStep (env : Env) (d : DirState) (cc : ChangeCache) (acc : RdAcc) (o : SwiftObj) : RdAcc :=
  let path := o.name
  let fileName := trimSuf (trimPre o.name d.path) "/"
  if isSymlink o d.path then
    { acc with tasks := acc.tasks ++ [Node.link { name := fileName, path := path, cName := d.cName }] }
  else if isDirectory o d.path then
    let p2 := if strIsSuf "/" o.name then path else path ++ "/"
    rdFinish env { acc with dirs := fileName :: acc.dirs }
      (Node.dir { name := fileName, path := p2, soName := o.name, cName := d.cName, csName := d.csName })
  else if isPseudoDirectory o d.path && !(acc.dirs.contains fileName) then
    rdFinish env { acc with dirs := fileName :: acc.dirs }
      (Node.dir { name := fileName, path := path, soName := o.name, cName := d.cName, csName := d.csName })
  else if !(strIsSuf "/" o.name) then
    match ccGet cc d.cName path with
    | some n => rdExport acc n
    | none =>
      let child := Node.obj { name := fileName, path := path, soName := o.name,
                              soBytes := o.bytes, sh := [], cName := d.cName, csName := d.csName,
                              segmented := false, writing := false }
      if isLargeObject o then { acc with tasks := acc.tasks ++ [child] }
      else rdFinish env acc child
  else acc

/-- The lister drain loop of `ReadDirAll`: each enrichment task posts its node
back and the loop appends its direntry and registers it. The
bounded-concurrency lister is modelled as completing tasks in submission
order (one admissible linearization; no claim depends on the order). -/
def drainTasks (acc : RdAcc) : List Dirent × List (String × Node) :=
  acc.tasks.foldl
    (fun r n => (r.1 ++ [nodeExport n], assocSet r.2 (nodeName n) n))
    (acc.direntries, acc.children)

/-- `Directory.ReadDirAll` (directory.go): serve from the cache when an entry
exists, otherwise list the backend with the directory prefix, classify each
entry, drain the enrichment tasks and install the children map in the
directory cache. -/
def readDirAll (env : Env) (st : DirFs) (d : DirState) :
    Except FsErr (List Dirent) × DirFs × List BackendOp :=
  match cacheFind st.cache d.cName d.path with
  | some entry => (.ok (entry.children.map (fun kv => nodeExport kv.2)), st, [])
  | none =>
    match env.listErr with
    | some e => (.error (.msg e), st, [.objectsAll d.cName d.path])
    | none =>
      let acc := env.listing.foldl (rdStep env d st.changeCache) rdInit
      let dc := drainTasks acc
      ((.ok dc.1),
       { st with cache := cacheAddAll st.cache d.cName d.path (.dir d) dc.2 },
       [.objectsAll d.cName d.path])

/-- `Directory.Lookup` (directory.go): fill the cache via `ReadDirAll` when the
parent's entry is absent (ignoring its result, as the source does), then
resolve the child from the cache or fail with `ENOENT`. -/
def dirLookup (env : Env) (st : DirFs) (d : DirState) (name : String) :
    Except FsErr Node × DirFs × List BackendOp :=
  let s1 :=
    if cachePeek st.cache d.cName d.path then (st, ([] : List BackendOp))
    else
      match readDirAll env st d with
      | (_, st1, tr1) => (st1, tr1)
  match cacheGet s1.1.cache d.cName d.path name with
  | some n => (.ok n, s1.1, s1.2)
  | none => (.error .enoent, s1.1, s1.2)

/-- `Directory.Mkdir` (directory.go): PUT an empty object with the directory
content type at the parent path plus name, build the Directory node (path
gets a trailing slash) and insert it into the parent's cache entry. Backend
errors map to `EIO`. -/
def dirMkdir (env : Env) (st : DirFs) (d : DirState) (name : String) :
    Except FsErr DirState × DirFs × List BackendOp :=
  let absPath := d.path ++ name
  match env.putErr with
  | some _ => (.error .eio, st, [.objectPutBytes d.cName absPath DirContentType])
  | none =>
    let node : DirState :=
      { name := name, path := absPath ++ "/", soName := absPath,
        cName := d.cName, csName := d.csName }
    (.ok node,
     { st with objects := storeAdd st.objects d.cName absPath,
               cache := cacheSet st.cache d.cName d.path name (.dir node) },
     [.objectPutBytes d.cName absPath DirContentType])

/-- `Directory.removeDirectory` (directory.go): best-effort delete of the
directory marker (the backend error is discarded), eviction of the removed
directory's own cache entry when present, and removal of the child from the
parent's entry (keyed by the node's recorded name). -/
def removeDirectory (env : Env) (st : DirFs) (d : DirState) (dd : DirState) :
    Option FsErr × DirFs × List BackendOp :=
  let objects1 := if env.objectDeleteFails then st.objects
                  else storeDel st.objects dd.cName dd.soName
  let cache1 := if cachePeek st.cache dd.cName dd.path
                then cacheErase st.cache dd.cName dd.path
                else st.cache
  let cache2 := cacheDelete cache1 dd.cName d.path dd.name
  (none, { st with objects := objects1, cache := cache2 },
   [.objectDelete dd.cName dd.soName])

/-- `Directory.removeObject` (directory.go): for a segmented object, HEAD the
manifest, validate the manifest header against `SegmentPathRegex` (failing
with a formatted error and touching nothing when it does not match), delete
the segments, then delete the object itself (backend error discarded) and
drop the child from the parent's cache entry. -/
def removeObject (env : Env) (st : DirFs) (d : DirState) (o : ObjState)
    (name path : String) :
    Option FsErr × DirFs × List BackendOp :=
  if o.segmented then
    match env.headErr with
    | some e => (some (.msg e), st, [.objectHead d.cName path])
    | none =>
      let mv := hGet env.headHeaders ManifestHeader
      if !segmentPathRegexMatch mv then
        (some (.msg ("Invalid segment path for manifest " ++ name)), st,
         [.objectHead d.cName path])
      else
        match env.deleteSegmentsErr with
        | some e => (some (.msg e), st,
                     [.objectHead d.cName path, .deleteSegmentsOp d.csName mv])
        | none =>
          let st1 := { st with objects := deleteSegmentsStore st.objects d.csName mv }
          let objects2 := if env.objectDeleteFails then st1.objects
                          else storeDel st1.objects d.cName path
          (none,
           { st1 with objects := objects2,
                      cache := cacheDelete st1.cache d.cName d.path name },
           [.objectHead d.cName path, .deleteSegmentsOp d.csName mv,
            .objectDelete d.cName path])
  else
    let objects1 := if env.objectDeleteFails then st.objects
                    else storeDel st.objects d.cName path
    (none,
     { st with objects := objects1,
               cache := cacheDelete st.cache d.cName d.path name },
     [.objectDelete d.cName path])

/-- `Directory.Remove` (directory.go): dispatch on the cached child — a
Directory goes to `removeDirectory`, an Object to `removeObject`, anything
else (including an uncached name) is rejected with `ENOTSUP`. -/
def dirRemove (env : Env) (st : DirFs) (d : DirState) (name : String) :
    Option FsErr × DirFs × List BackendOp :=
  let path := d.path ++ name
  match cacheGet st.cache d.cName d.path name with
  | some (.dir dd) => removeDirectory env st d dd
  | some (.obj o) => removeObject env st d o name path
  | _ => (some .enotsup, st, [])

/-- `Directory.moveObject` (directory.go): backend `ObjectMove`, then update
the node's name and path and relocate the cache entry. -/
def moveObjectFn (env : Env) (st : DirFs)
    (oc op onm nc np nn : String) (o : ObjState) :
    Option FsErr × DirFs × List BackendOp :=
  match env.objectMoveErr with
  | some e => (some (.msg e), st, [.objectMove oc (op ++ onm) nc (np ++ nn)])
  | none =>
    let o2 := { o with name := nn, path := np ++ nn }
    (none,
     { st with objects := storeAdd (storeDel st.objects oc (op ++ onm)) nc (np ++ nn),
               cache := cacheSet (cacheDelete st.cache oc op onm) nc np nn (.obj o2) },
     [.objectMove oc (op ++ onm) nc (np ++ nn)])

/-- `Directory.moveManifest` (directory.go): `ManifestCopy` preserving the
segment references, then delete the source manifest (this error does
propagate), then relocate the cache entry. -/
def moveManifestFn (env : Env) (st : DirFs)
    (oc op onm nc np nn : String) (o : ObjState) :
    Option FsErr × DirFs × List BackendOp :=
  match env.manifestCopyErr with
  | some e => (some (.msg e), st, [.manifestCopy oc (op ++ onm) nc (np ++ nn)])
  | none =>
    let st1 := { st with objects := storeAdd st.objects nc (np ++ nn) }
    if env.objectDeleteFails then
      (some (.msg "ObjectDelete failed"), st1,
       [.manifestCopy oc (op ++ onm) nc (np ++ nn), .objectDelete oc (op ++ onm)])
    else
      let o2 := { o with name := nn, path := np ++ nn }
      (none,
       { st1 with objects := storeDel st1.objects oc (op ++ onm),
                  cache := cacheSet (cacheDelete st1.cache oc op onm) nc np nn (.obj o2) },
       [.manifestCopy oc (op ++ onm) nc (np ++ nn), .objectDelete oc (op ++ onm)])

/-- `Directory.move` (directory.go): only a cached Object can be renamed — a
manifest via `moveManifest`, a plain object via `ObjectMove`; anything else
is `ENOTSUP`. -/
def dirMove (env : Env) (st : DirFs) (d : DirState)
    (oc op oldName nc np newName : String) :
    Option FsErr × DirFs × List BackendOp :=
  match cacheGet st.cache d.cName d.path oldName with
  | some (.obj o) =>
    if o.segmented then moveManifestFn env st oc op oldName nc np newName o
    else moveObjectFn env st oc op oldName nc np newName o
  | _ => (some .enotsup, st, [])

/-- `Directory.Rename` (directory.go): when the destination node is a
Directory, dispatch to `move`; otherwise `ENOTSUP`. -/
def dirRename (env : Env) (st : DirFs) (d : DirState)
    (oldName newName : String) (newDir : Node) :
    Option FsErr × DirFs × List BackendOp :=
  match newDir with
  | .dir t => dirMove env st d d.cName d.path oldName t.cName t.path newName
  | _ => (some .enotsup, st, [])

/-! ### Helper lemmas -/

theorem find?_filter_not {α} (l : List α) (p : α → Bool) :
    (l.filter (fun a => !(p a))).find? p = none := by
  rw [List.find?_eq_none]
  intro x hx
  have h := (List.mem_filter.mp hx).2
  simp only [Bool.not_eq_true'] at h
  simp [h]

theorem any_filter_not {α} (l : List α) (p : α → Bool) :
    (l.filter (fun a => !(p a))).any p = false := by
  rw [List.any_eq_false]
  intro x hx
  have h := (List.mem_filter.mp hx).2
  simp only [Bool.not_eq_true'] at h
  simp [h]

theorem hHas_hDel (h : Headers) (k : String) : hHas (hDel h k) k = false :=
  any_filter_not h (fun p => p.1 == k)

theorem ccExist_ccRemove (cc : ChangeCache) (co p : String) :
    ccExist (ccRemove cc co p) co p = false :=
  any_filter_not cc (fun kv => kv.1.1 == co && kv.1.2 == p)

theorem assocGet_filter_not (l : List (String × Node)) (name : String) :
    assocGet (l.filter (fun e => !(e.1 == name))) name = none := by
  unfold assocGet
  rw [find?_filter_not]

theorem assocGet_assocSet_self (l : List (String × Node)) (k : String) (v : Node) :
    assocGet (assocSet l k v) k = some v := by
  simp [assocGet, assocSet, List.find?]

theorem cacheFind_cacheErase_self (c : Cache) (co p : String) :
    cacheFind (cacheErase c co p) co p = none := by
  unfold cacheFind cacheErase
  rw [find?_filter_not]

theorem cacheFind_cacheSet_self (c : Cache) (co p name : String) (n : Node) :
    cacheFind (cacheSet c co p name n) co p =
      some { (cacheFind c co p).getD { parent := none, children := [] } with
             children := assocSet ((cacheFind c co p).getD
               { parent := none, children := [] }).children name n } := by
  simp [cacheSet, cacheFind, List.find?]

theorem cachePeek_cacheSet_self (c : Cache) (co p name : String) (n : Node) :
    cachePeek (cacheSet c co p name n) co p = true := by
  simp [cachePeek, cacheFind_cacheSet_self]

theorem cacheGet_cacheSet_self (c : Cache) (co p name : String) (n : Node) :
    cacheGet (cacheSet c co p name n) co p name = some n := by
  simp [cacheGet, cacheFind_cacheSet_self, assocGet_assocSet_self]

theorem cacheGet_cacheDelete_self (c : Cache) (co p name : String) :
    cacheGet (cacheDelete c co p name) co p name = none := by
  induction c with
  | nil => rfl
  | cons kv t ih =>
    by_cases hk : (kv.1.1 == co && kv.1.2 == p) = true
    · simp only [cacheDelete, List.map_cons, hk, if_pos]
      simp only [cacheGet, cacheFind, List.find?, hk]
      exact assocGet_filter_not kv.2.children name
    · simp only [cacheDelete, List.map_cons, hk, if_neg, Bool.not_eq_true]
      simp only [cacheGet, cacheFind, List.find?] at ih ⊢
      rw [Bool.not_eq_true] at hk
      rw [hk]
      simpa [cacheDelete] using ih

theorem cacheFind_cacheDelete_none (c : Cache) (co p name co' p' : String)
    (h : cacheFind c co' p' = none) :
    cacheFind (cacheDelete c co p name) co' p' = none := by
  induction c with
  | nil => rfl
  | cons kv t ih =>
    simp only [cacheFind, List.find?] at h
    by_cases hk : (kv.1.1 == co' && kv.1.2 == p') = true
    · rw [hk] at h
      exact absurd h (by simp)
    · rw [Bool.not_eq_true] at hk
      rw [hk] at h
      have ih2 := ih (by simpa [cacheFind] using h)
      by_cases hd : (kv.1.1 == co && kv.1.2 == p) = true
      · simp only [cacheDelete, List.map_cons, hd, if_pos]
        simp only [cacheFind, List.find?, hk]
        simpa [cacheFind, cacheDelete] using ih2
      · rw [Bool.not_eq_true] at hd
        simp only [cacheDelete, List.map_cons, hd, Bool.false_eq_true, if_neg,
          not_false_eq_true]
        simp only [cacheFind, List.find?, hk]
        simpa [cacheFind, cacheDelete] using ih2

theorem cachePeek_eq_false_of_find_none {c : Cache} {co p : String}
    (h : cacheFind c co p = none) : cachePeek c co p = false := by
  unfold cachePeek
  rw [h]
  rfl

theorem mem_storeDel {s : Store} {c p : String} {e : String × String}
    (h : e ∈ storeDel s c p) : e ∈ s :=
  (List.mem_filter.mp h).1

theorem storeDel_self_not_mem (s : Store) (c p : String) : (c, p) ∉ storeDel s c p := by
  intro h
  have h2 := (List.mem_filter.mp h).2
  simp at h2

theorem mem_deleteSegmentsStore {s : Store} {cs mv : String} {e : String × String}
    (h : e ∈ deleteSegmentsStore s cs mv) (hc : e.1 = cs) :
    strIsPre (manifestPfx cs mv) e.2 = false := by
  have h2 := (List.mem_filter.mp h).2
  simp only [Bool.not_eq_true', Bool.and_eq_false_iff] at h2
  rcases h2 with h2 | h2
  · rw [hc] at h2
    simp at h2
  · exact h2

theorem truncateFn_ok (env : Env) (fh fh' : HandleState) (tr : List BackendOp)
    (h : truncateFn env fh = .ok (fh', tr)) :
    fh'.truncated = true ∧ fh'.wdOpen = true ∧ fh'.target.soBytes = 0 ∧
    fh'.target.segmented = false ∧
    (fh.target.segmented = true → hHas fh'.target.sh ManifestHeader = false) ∧
    tr = (if fh.target.segmented then
            [.deleteSegmentsOp fh.target.csName (hGet fh.target.sh ManifestHeader)]
          else []) ++ [.newWriter fh.target.cName fh.target.soName] ∧
    fh'.uploaded = fh.uploaded ∧ fh'.wroteSegment = fh.wroteSegment ∧
    fh'.segmentID = fh.segmentID ∧ fh'.target.path = fh.target.path ∧
    fh'.target.cName = fh.target.cName ∧ fh'.target.csName = fh.target.csName ∧
    fh'.segPfx = fh.segPfx ∧ fh'.create = fh.create ∧
    fh'.target.writing = fh.target.writing := by
  cases hds : env.deleteSegmentsErr <;> cases hnw : env.newWriterErr <;>
    by_cases hs : fh.target.segmented = true <;>
    simp only [truncateFn, hds, hnw, hs, Bool.not_eq_true, if_pos, if_neg,
      Bool.false_eq_true, not_false_eq_true, if_true, if_false] at h <;>
    try exact Except.noConfusion h
  all_goals simp only [Except.ok.injEq, Prod.mk.injEq] at h
  all_goals obtain ⟨h1, h2⟩ := h
  all_goals subst h1 h2
  all_goals simp [hs, hHas_hDel]

theorem writeTruncStep_ok (env : Env) (fh fh' : HandleState) (tr : List BackendOp)
    (h : writeTruncStep env fh = .ok (fh', tr)) :
    fh'.uploaded = fh.uploaded ∧ fh'.wroteSegment = fh.wroteSegment ∧
    fh'.segmentID = fh.segmentID ∧ fh'.target.path = fh.target.path ∧
    fh'.target.cName = fh.target.cName ∧ fh'.target.csName = fh.target.csName ∧
    fh'.segPfx = fh.segPfx := by
  unfold writeTruncStep at h
  by_cases hc : (!fh.create && !fh.truncated) = true
  · rw [if_pos hc] at h
    have hp := truncateFn_ok env fh fh' tr h
    exact ⟨hp.2.2.2.2.2.2.1, hp.2.2.2.2.2.2.2.1, hp.2.2.2.2.2.2.2.2.1,
      hp.2.2.2.2.2.2.2.2.2.1, hp.2.2.2.2.2.2.2.2.2.2.1,
      hp.2.2.2.2.2.2.2.2.2.2.2.1, hp.2.2.2.2.2.2.2.2.2.2.2.2.1⟩
  · rw [if_neg hc] at h
    simp only [Except.ok.injEq, Prod.mk.injEq] at h
    obtain ⟨h1, _⟩ := h
    subst h1
    exact ⟨rfl, rfl, rfl, rfl, rfl, rfl, rfl⟩

/-! ### Concrete inputs shared by witnesses -/

/-- An environment in which every backend call succeeds. -/
def envOk : Env :=
  { now := 7, segmentSize := 2, encryption := false, extraAttr := false,
    listing := [], listErr := none, headHeaders := [], headErr := none,
    putErr := none, objectMoveErr := none, manifestCopyErr := none,
    objectDeleteFails := false, deleteSegmentsErr := none, newWriterErr := none,
    initSegmentErr := none, wdWriteErr := none, updateHeadersErr := none,
    newReaderContent := [], newReaderErr := none }

/-! ### Claims -/

/-- C9: for every Remove(name) where the cached child for name is neither a
Directory nor an Object (a Symlink, or no node cached under name at all),
the operation returns the not-supported error, leaves the state unchanged
and performs no backend call. -/
theorem c9_remove_other_variant_not_supported (env : Env) (st : DirFs) (d : DirState)
    (name : String)
    (h : cacheGet st.cache d.cName d.path name = none ∨
         ∃ l, cacheGet st.cache d.cName d.path name = some (.link l)) :
    dirRemove env st d name = (some .enotsup, st, []) := by
  rcases h with h | ⟨l, h⟩ <;> simp [dirRemove, h]

/-- Parent directory shared by several witnesses. -/
def dP : DirState :=
  { name := "p", path := "p/", soName := "p", cName := "c", csName := "cs" }

/-- State with a symlink cached under "x", used by the C9 witness. -/
def c9st : DirFs :=
  { objects := [("c", "p/x")],
    cache := [(("c", "p/"),
      { parent := none,
        children := [("x", Node.link { name := "x", path := "p/x", cName := "c" })] })],
    changeCache := [] }

theorem c9_remove_other_variant_not_supported_witness :
    (∃ l, cacheGet c9st.cache dP.cName dP.path "x" = some (.link l)) ∧
    dirRemove envOk c9st dP "x" = (some .enotsup, c9st, []) :=
  ⟨⟨{ name := "x", path := "p/x", cName := "c" }, by decide⟩,
   c9_remove_other_variant_not_supported envOk c9st dP "x"
     (Or.inr ⟨{ name := "x", path := "p/x", cName := "c" }, by decide⟩)⟩

/-- C10: for every Rename(oldname, newdir, newname) where newdir is a
Directory but the node cached under oldname is not an Object (a Directory,
a Symlink, or absent), the operation returns the not-supported error,
leaves the state unchanged and performs no backend call; in particular
directories cannot be renamed. -/
theorem c10_rename_non_object_not_supported (env : Env) (st : DirFs) (d : DirState)
    (oldName newName : String) (t : DirState)
    (h : cacheGet st.cache d.cName d.path oldName = none ∨
         (∃ dd, cacheGet st.cache d.cName d.path oldName = some (.dir dd)) ∨
         (∃ l, cacheGet st.cache d.cName d.path oldName = some (.link l))) :
    dirRename env st d oldName newName (Node.dir t) = (some .enotsup, st, []) := by
  rcases h with h | ⟨dd, h⟩ | ⟨l, h⟩ <;> simp [dirRename, dirMove, h]

/-- Subdirectory cached under "sub", used by the C10 witness. -/
def c10sub : DirState :=
  { name := "sub", path := "p/sub/", soName := "p/sub", cName := "c", csName := "cs" }

/-- State with a directory cached under "sub", used by the C10 witness. -/
def c10st : DirFs :=
  { objects := [("c", "p/sub")],
    cache := [(("c", "p/"),
      { parent := none, children := [("sub", Node.dir c10sub)] })],
    changeCache := [] }

/-- Destination directory used by the C10 witness. -/
def c10dst : DirState :=
  { name := "q", path := "q/", soName := "q", cName := "c", csName := "cs" }

theorem c10_rename_non_object_not_supported_witness :
    (∃ dd, cacheGet c10st.cache dP.cName dP.path "sub" = some (.dir dd)) ∧
    dirRename envOk c10st dP "sub" "sub2" (Node.dir c10dst) = (some .enotsup, c10st, []) :=
  ⟨⟨c10sub, by decide⟩,
   c10_rename_non_object_not_supported envOk c10st dP "sub" "sub2" c10dst
     (Or.inr (Or.inl ⟨c10sub, by decide⟩))⟩

/-- C8: for every Remove(name) whose cached child is a Directory, the
operation succeeds even when the backend delete of the marker fails (the
error is swallowed), the removed directory's own children entry is evicted
from the cache, and the child is removed from the parent's entry. The
hypotheses `dd.name = name` and `dd.cName = d.cName` record that a cached
node carries the name and container it is cached under, which holds for
every insertion performed by this code. -/
theorem c8_remove_directory_best_effort (env : Env) (st : DirFs) (d : DirState)
    (name : String) (dd : DirState)
    (hget : cacheGet st.cache d.cName d.path name = some (.dir dd))
    (hname : dd.name = name) (hco : dd.cName = d.cName) :
    (dirRemove env st d name).1 = none ∧
    (dirRemove env st d name).2.2 = [.objectDelete dd.cName dd.soName] ∧
    cachePeek (dirRemove env st d name).2.1.cache dd.cName dd.path = false ∧
    cacheGet (dirRemove env st d name).2.1.cache d.cName d.path name = none := by
  have hres : dirRemove env st d name = removeDirectory env st d dd := by
    simp [dirRemove, hget]
  rw [hres]
  unfold removeDirectory
  have hnone : cacheFind
      (if cachePeek st.cache dd.cName dd.path then cacheErase st.cache dd.cName dd.path
       else st.cache) dd.cName dd.path = none := by
    by_cases hpk : cachePeek st.cache dd.cName dd.path = true
    · rw [if_pos hpk]
      exact cacheFind_cacheErase_self st.cache dd.cName dd.path
    · rw [if_neg hpk]
      unfold cachePeek at hpk
      cases hfind : cacheFind st.cache dd.cName dd.path
      · rfl
      · rw [hfind] at hpk
        simp at hpk
  refine ⟨rfl, rfl, ?_, ?_⟩
  · exact cachePeek_eq_false_of_find_none
      (cacheFind_cacheDelete_none _ dd.cName d.path dd.name dd.cName dd.path hnone)
  · rw [← hco, ← hname]
    exact cacheGet_cacheDelete_self _ dd.cName d.path dd.name

/-- Directory node cached under "sub" that the C8 witness removes. -/
def c8sub : DirState :=
  { name := "sub", path := "p/sub/", soName := "p/sub", cName := "c", csName := "cs" }

/-- State for the C8 witness: "sub" is cached in the parent entry and has a
children entry of its own; the backend marker delete is made to fail. -/
def c8st : DirFs :=
  { objects := [("c", "p/sub")],
    cache := [(("c", "p/"), { parent := none, children := [("sub", Node.dir c8sub)] }),
              (("c", "p/sub/"), { parent := some (.dir c8sub), children := [] })],
    changeCache := [] }

/-- Environment in which `ObjectDelete` fails, for the C8 witness. -/
def c8env : Env := { envOk with objectDeleteFails := true }

theorem c8_remove_directory_best_effort_witness :
    cacheGet c8st.cache dP.cName dP.path "sub" = some (.dir c8sub) ∧
    (dirRemove c8env c8st dP "sub").1 = none ∧
    (dirRemove c8env c8st dP "sub").2.2 = [.objectDelete "c" "p/sub"] ∧
    cachePeek (dirRemove c8env c8st dP "sub").2.1.cache c8sub.cName c8sub.path = false ∧
    cacheGet (dirRemove c8env c8st dP "sub").2.1.cache dP.cName dP.path "sub" = none := by
  have h := c8_remove_directory_best_effort c8env c8st dP "sub" c8sub
    (by decide) (by decide) (by decide)
  exact ⟨by decide, h.1, h.2.1, h.2.2.1, h.2.2.2⟩

/-- C6: after a successful Mkdir(name) on a directory, a Lookup(name) on the
same directory returns the Directory node without issuing any backend call
— in particular no object-list call — because the cache entry installed by
Mkdir satisfies both the Peek and the Get performed by Lookup. -/
theorem c6_mkdir_then_lookup (env env2 : Env) (st : DirFs) (d : DirState)
    (name : String) (nd : DirState) (st1 : DirFs) (tr1 : List BackendOp)
    (hmk : dirMkdir env st d name = (.ok nd, st1, tr1)) :
    dirLookup env2 st1 d name = (.ok (.dir nd), st1, []) := by
  cases hput : env.putErr with
  | some e =>
    simp [dirMkdir, hput] at hmk
  | none =>
    simp only [dirMkdir, hput, Prod.mk.injEq, Except.ok.injEq] at hmk
    obtain ⟨h1, h2, h3⟩ := hmk
    have hcache : st1.cache = cacheSet st.cache d.cName d.path name (.dir nd) := by
      rw [← h2, ← h1]
    have hpk : cachePeek st1.cache d.cName d.path = true := by
      rw [hcache]
      exact cachePeek_cacheSet_self st.cache d.cName d.path name (.dir nd)
    have hg : cacheGet st1.cache d.cName d.path name = some (.dir nd) := by
      rw [hcache]
      exact cacheGet_cacheSet_self st.cache d.cName d.path name (.dir nd)
    simp [dirLookup, hpk, hg]

/-- Empty shared state used by witnesses. -/
def stEmpty : DirFs := { objects := [], cache := [], changeCache := [] }

/-- The directory node produced by the C6 witness Mkdir. -/
def c6nd : DirState :=
  { name := "n", path := "p/n/", soName := "p/n", cName := "c", csName := "cs" }

/-- The state after the C6 witness Mkdir. -/
def c6st1 : DirFs := (dirMkdir envOk stEmpty dP "n").2.1

theorem c6_mkdir_then_lookup_witness :
    dirMkdir envOk stEmpty dP "n" =
      (.ok c6nd, c6st1, [.objectPutBytes "c" "p/n" DirContentType]) ∧
    dirLookup envOk c6st1 dP "n" = (.ok (.dir c6nd), c6st1, []) :=
  ⟨by rfl,
   c6_mkdir_then_lookup envOk envOk stEmpty dP "n" c6nd c6st1
     [.objectPutBytes "c" "p/n" DirContentType] (by rfl)⟩

/-- C4: removing a cached segmented Object HEADs the object and validates the
manifest header against the segment-path regex: on mismatch it returns the
formatted error and touches neither segments nor manifest nor cache; on
match every segment sharing the manifest prefix is deleted, then the
manifest object is deleted and the child is dropped from the parent's cache
entry. -/
theorem c4_remove_segmented_object (env : Env) (st : DirFs) (d : DirState)
    (o : ObjState) (name path : String)
    (hseg : o.segmented = true) (hh : env.headErr = none) :
    (segmentPathRegexMatch (hGet env.headHeaders ManifestHeader) = false →
      removeObject env st d o name path =
        (some (.msg ("Invalid segment path for manifest " ++ name)), st,
         [.objectHead d.cName path])) ∧
    (segmentPathRegexMatch (hGet env.headHeaders ManifestHeader) = true →
      env.deleteSegmentsErr = none → env.objectDeleteFails = false →
      (removeObject env st d o name path).1 = none ∧
      (removeObject env st d o name path).2.2 =
        [.objectHead d.cName path,
         .deleteSegmentsOp d.csName (hGet env.headHeaders ManifestHeader),
         .objectDelete d.cName path] ∧
      (∀ nm, (d.csName, nm) ∈ (removeObject env st d o name path).2.1.objects →
        strIsPre (manifestPfx d.csName (hGet env.headHeaders ManifestHeader)) nm = false) ∧
      (d.cName, path) ∉ (removeObject env st d o name path).2.1.objects ∧
      cacheGet (removeObject env st d o name path).2.1.cache d.cName d.path name = none) := by
  constructor
  · intro hnm
    simp [removeObject, hseg, hh, hnm]
  · intro hm hds hdf
    have hres : removeObject env st d o name path =
        (none,
         { st with
             objects := storeDel (deleteSegmentsStore st.objects d.csName
               (hGet env.headHeaders ManifestHeader)) d.cName path,
             cache := cacheDelete st.cache d.cName d.path name },
         [.objectHead d.cName path,
          .deleteSegmentsOp d.csName (hGet env.headHeaders ManifestHeader),
          .objectDelete d.cName path]) := by
      simp [removeObject, hseg, hh, hm, hds, hdf]
    rw [hres]
    refine ⟨rfl, rfl, ?_, ?_, ?_⟩
    · intro nm hmem
      exact mem_deleteSegmentsStore (mem_storeDel hmem) rfl
    · exact storeDel_self_not_mem _ d.cName path
    · exact cacheGet_cacheDelete_self st.cache d.cName d.path name

/-- The segmented object removed by the C4 witness. -/
def c4o : ObjState :=
  { name := "big", path := "p/big", soName := "p/big", soBytes := 0, sh := [],
    cName := "c", csName := "cs", segmented := true, writing := false }

/-- State holding the manifest, two of its segments and one unrelated segment
object, used by the C4 witness. -/
def c4st : DirFs :=
  { objects := [("c", "p/big"), ("cs", "big/7/0"), ("cs", "big/7/1"), ("cs", "keep")],
    cache := [(("c", "p/"), { parent := none, children := [("big", Node.obj c4o)] })],
    changeCache := [] }

/-- Environment whose HEAD returns a well-formed manifest header. -/
def c4env : Env := { envOk with headHeaders := [(ManifestHeader, "cs/big/7")] }

/-- Environment whose HEAD returns a malformed manifest header. -/
def c4envBad : Env := { envOk with headHeaders := [(ManifestHeader, "nomatch")] }

theorem c4_remove_segmented_object_witness :
    removeObject c4envBad c4st dP c4o "big" "p/big" =
      (some (.msg "Invalid segment path for manifest big"), c4st,
       [.objectHead "c" "p/big"]) ∧
    (removeObject c4env c4st dP c4o "big" "p/big").1 = none ∧
    ("cs", "big/7/0") ∉ (removeObject c4env c4st dP c4o "big" "p/big").2.1.objects ∧
    ("cs", "keep") ∈ (removeObject c4env c4st dP c4o "big" "p/big").2.1.objects ∧
    ("c", "p/big") ∉ (removeObject c4env c4st dP c4o "big" "p/big").2.1.objects ∧
    cacheGet (removeObject c4env c4st dP c4o "big" "p/big").2.1.cache "c" "p/" "big" = none := by
  have h1 := c4_remove_segmented_object c4envBad c4st dP c4o "big" "p/big"
    (by decide) (by decide)
  have h2 := c4_remove_segmented_object c4env c4st dP c4o "big" "p/big"
    (by decide) (by decide)
  have h2s := h2.2 (by decide) (by decide) (by decide)
  refine ⟨h1.1 (by decide), h2s.1, ?_, by decide, h2s.2.2.2.1, h2s.2.2.2.2⟩
  intro hmem
  exact absurd (h2s.2.2.1 "big/7/0" hmem) (by decide)

/-- C3 (amended): a successful Release of a handle holding an open writer
closes the writer, clears the target's writing flag, removes the
change-cache registration for the target and releases the mutex; with
encryption enabled the crypto headers are written back. (The claim as
stated, covering also the error return, fails: see the counterexample.) -/
theorem c3_release_success (env : Env) (fh fh' : HandleState) (cc cc' : ChangeCache)
    (mh mh' : Bool) (tr : List BackendOp)
    (hwd : fh.wdOpen = true)
    (hreg : ccExist cc fh.target.cName fh.target.path = true)
    (hr : release env fh cc mh = (none, fh', cc', mh', tr)) :
    fh'.wdOpen = false ∧ fh'.target.writing = false ∧
    ccExist cc' fh.target.cName fh.target.path = false ∧ mh' = false ∧
    (env.encryption = true →
      tr = [.writeBackHeaders fh.target.cName fh.target.path fh.nonce]) := by
  cases henc : env.encryption with
  | false =>
    simp only [release, releaseTail, hwd, henc, if_true, if_false,
      Bool.false_eq_true, hreg, Prod.mk.injEq] at hr
    obtain ⟨_, h2, h3, h4, h5⟩ := hr
    subst h2 h3 h4 h5
    refine ⟨rfl, rfl, ccExist_ccRemove cc _ _, rfl, ?_⟩
    intro h
    exact absurd h (by simp [henc])
  | true =>
    cases hue : env.updateHeadersErr with
    | some e =>
      simp only [release, releaseTail, hwd, henc, hue, if_true, Prod.mk.injEq] at hr
      exact absurd hr.1 (by simp)
    | none =>
      simp only [release, releaseTail, hwd, henc, hue, if_true, hreg,
        Prod.mk.injEq] at hr
      obtain ⟨_, h2, h3, h4, h5⟩ := hr
      subst h2 h3 h4 h5
      exact ⟨rfl, rfl, ccExist_ccRemove cc _ _, rfl, fun _ => rfl⟩

/-- Handle with an open writer on a target being written, used by C3. -/
def c3fh : HandleState :=
  { target := { name := "f", path := "p/f", soName := "p/f", soBytes := 3, sh := [],
                cName := "c", csName := "cs", segmented := false, writing := true },
    rd := none, wdOpen := true, create := false, truncated := true, nonce := "n0",
    wroteSegment := false, segmentID := 0, uploaded := 3, segPfx := "", segPath := "" }

/-- Change cache registering the C3 target. -/
def c3cc : ChangeCache := [(("c", "p/f"), Node.obj c3fh.target)]

/-- Environment in which encryption is on and the header write-back fails. -/
def c3envBad : Env := { envOk with encryption := true, updateHeadersErr := some "hdrfail" }

/-- C3 counterexample: with encryption enabled and a failing header
write-back, Release returns the error with the writer closed but the
writing flag still set, the change-cache registration still present and
the mutex still held — contradicting the claim that these always hold
"when Release returns". -/
theorem c3_release_error_counterexample :
    (release c3envBad c3fh c3cc true).1 = some "hdrfail" ∧
    (release c3envBad c3fh c3cc true).2.1.wdOpen = false ∧
    (release c3envBad c3fh c3cc true).2.1.target.writing = true ∧
    ccExist (release c3envBad c3fh c3cc true).2.2.1 "c" "p/f" = true ∧
    (release c3envBad c3fh c3cc true).2.2.2.1 = true := by decide

/-- Environment with encryption on and all calls succeeding. -/
def c3envOkE : Env := { envOk with encryption := true }

theorem c3_release_success_witness :
    c3fh.wdOpen = true ∧ ccExist c3cc "c" "p/f" = true ∧
    (release c3envOkE c3fh c3cc true).2.1.wdOpen = false ∧
    (release c3envOkE c3fh c3cc true).2.1.target.writing = false ∧
    ccExist (release c3envOkE c3fh c3cc true).2.2.1 "c" "p/f" = false ∧
    (release c3envOkE c3fh c3cc true).2.2.2.1 = false ∧
    (release c3envOkE c3fh c3cc true).2.2.2.2 = [.writeBackHeaders "c" "p/f" "n0"] := by
  have h := c3_release_success c3envOkE c3fh ((release c3envOkE c3fh c3cc true).2.1)
    c3cc ((release c3envOkE c3fh c3cc true).2.2.1) true
    ((release c3envOkE c3fh c3cc true).2.2.2.1)
    ((release c3envOkE c3fh c3cc true).2.2.2.2)
    (by decide) (by decide) rfl
  exact ⟨by decide, by decide, h.1, h.2.1, h.2.2.1, h.2.2.2.1, h.2.2.2.2 rfl⟩

theorem readFullBytes_length (content : List Nat) (off size : Nat) :
    (readFullBytes content off size).length = size := by
  have h1 : ((content.drop off).take size).length ≤ size := by
    rw [List.length_take]
    exact min_le_left _ _
  simp only [readFullBytes, List.length_append, List.length_replicate]
  omega

/-- C7 (amended): Read constructs the reader lazily on the first call, seeks
to the offset, and always answers with exactly `size` bytes: the object's
bytes starting at the offset followed by zero padding when the object ends
before `size` bytes. (The claim as stated — the response holds only the
bytes read, possibly fewer than `size` at end of file — fails: see the
counterexample.) -/
theorem c7_read_fills_request_size (env : Env) (fh fh' : HandleState)
    (off size : Nat) (data : List Nat) (tr : List BackendOp)
    (h : handleRead env fh off size = .ok (fh', data, tr)) :
    data.length = size ∧
    (∀ content pos, fh.rd = some (content, pos) →
      data = readFullBytes content off size ∧ tr = []) ∧
    (fh.rd = none →
      data = readFullBytes env.newReaderContent off size ∧
      tr = [.newReaderOp fh.target.cName fh.target.path]) ∧
    fh'.rd.isSome = true := by
  cases hrd : fh.rd with
  | some cp =>
    obtain ⟨content, pos⟩ := cp
    simp only [handleRead, hrd, Except.ok.injEq, Prod.mk.injEq] at h
    obtain ⟨h1, h2, h3⟩ := h
    subst h1 h2 h3
    refine ⟨readFullBytes_length content off size, ?_, ?_, rfl⟩
    · intro c2 p2 hc
      simp only [Option.some.injEq, Prod.mk.injEq] at hc
      obtain ⟨h4, h5⟩ := hc
      subst h4
      exact ⟨rfl, rfl⟩
    · intro hc
      exact Option.noConfusion hc
  | none =>
    cases hnr : env.newReaderErr with
    | some e =>
      simp [handleRead, hrd, hnr] at h
    | none =>
      simp only [handleRead, hrd, hnr, Except.ok.injEq, Prod.mk.injEq] at h
      obtain ⟨h1, h2, h3⟩ := h
      subst h1 h2 h3
      refine ⟨readFullBytes_length _ off size, ?_, fun _ => ⟨rfl, rfl⟩, rfl⟩
      intro c2 p2 hc
      exact Option.noConfusion hc

/-- Handle with an open reader over a 2-byte object, used by C7. -/
def c7fh : HandleState :=
  { target := { name := "f", path := "p/f", soName := "p/f", soBytes := 2, sh := [],
                cName := "c", csName := "cs", segmented := false, writing := false },
    rd := some ([1, 2], 0), wdOpen := false, create := false, truncated := false,
    nonce := "", wroteSegment := false, segmentID := 0, uploaded := 0,
    segPfx := "", segPath := "" }

/-- The response bytes of the C7 counterexample read. -/
def c7data : List Nat :=
  match handleRead envOk c7fh 0 4 with
  | .ok r => r.2.1
  | .error _ => []

/-- C7 counterexample: reading 4 bytes of a 2-byte object returns a 4-byte
response — the 2 object bytes followed by 2 zero bytes that were not read
from the object; the response is never shorter than the requested size, so
the response does not consist of the bytes read from the object. -/
theorem c7_read_zero_padding_counterexample :
    c7data = [1, 2, 0, 0] ∧ c7data.length = 4 ∧ ¬ c7data = [1, 2] := by decide

/-- C7 witness handle: no reader yet (lazy construction exercised). -/
def c7fhL : HandleState := { c7fh with rd := none }

/-- C7 witness environment: the object content served by `newReader`. -/
def c7env : Env := { envOk with newReaderContent := [5, 6, 7] }

/-- Handle state after the C7 witness read. -/
def c7fhOut : HandleState :=
  match handleRead c7env c7fhL 1 2 with
  | .ok r => r.1
  | .error _ => c7fhL

/-- Response bytes of the C7 witness read. -/
def c7dataW : List Nat :=
  match handleRead c7env c7fhL 1 2 with
  | .ok r => r.2.1
  | .error _ => []

/-- Trace of the C7 witness read. -/
def c7trW : List BackendOp :=
  match handleRead c7env c7fhL 1 2 with
  | .ok r => r.2.2
  | .error _ => []

theorem c7_read_fills_request_size_witness :
    c7fhL.rd = none ∧ c7dataW.length = 2 ∧ c7dataW = [6, 7] ∧
    c7trW = [.newReaderOp "c" "p/f"] ∧ c7fhOut.rd.isSome = true := by
  have h := c7_read_fills_request_size c7env c7fhL c7fhOut 1 2 c7dataW c7trW rfl
  have h3 := h.2.2.1 rfl
  exact ⟨rfl, h.1, h3.1.trans (by decide), h3.2, h.2.2.2⟩

/-- C2 (amended): a Write on a handle whose target existed before open (not
created) and that has not yet truncated first runs the truncation step:
before any byte is written it deletes the existing segments when the target
is segmented (dropping the manifest header and clearing the segmented
flag), resets the reported size to 0, opens a fresh backend writer at the
target's store-object name (equal to the target path except when a rename
left a stale store-object name — see the counterexample) and sets the
truncated flag. -/
theorem c2_write_truncates_existing (env : Env) (fh fh' : HandleState)
    (data : List Nat) (tr : List BackendOp) (n : Nat)
    (hc : fh.create = false) (ht : fh.truncated = false)
    (hw : handleWrite env fh data = .ok (fh', tr, n)) :
    ∃ fhT trT trRest,
      truncateFn env (setWriting fh) = .ok (fhT, trT) ∧
      tr = trT ++ trRest ∧
      fhT.truncated = true ∧ fhT.wdOpen = true ∧
      fhT.target.soBytes = 0 ∧ fhT.target.segmented = false ∧
      (fh.target.segmented = true → hHas fhT.target.sh ManifestHeader = false) ∧
      trT = (if fh.target.segmented then
               [.deleteSegmentsOp fh.target.csName (hGet fh.target.sh ManifestHeader)]
             else []) ++ [.newWriter fh.target.cName fh.target.soName] := by
  unfold handleWrite at hw
  have hws : writeTruncStep env (setWriting fh) = truncateFn env (setWriting fh) := by
    unfold writeTruncStep
    rw [if_pos (by simp [setWriting, hc, ht])]
  rw [hws] at hw
  cases htr : truncateFn env (setWriting fh) with
  | error e =>
    rw [htr] at hw
    exact absurd hw (by simp)
  | ok res =>
    obtain ⟨fhT, trT⟩ := res
    rw [htr] at hw
    dsimp only at hw
    have hp := truncateFn_ok env (setWriting fh) fhT trT htr
    refine ⟨fhT, trT, ?_⟩
    by_cases hle : fhT.uploaded + data.length ≤ env.segmentSize
    · rw [if_pos hle] at hw
      cases hwd : env.wdWriteErr with
      | some e =>
        rw [hwd] at hw
        exact absurd hw (by simp)
      | none =>
        rw [hwd] at hw
        simp only [Except.ok.injEq, Prod.mk.injEq] at hw
        refine ⟨[.wdWrite data], rfl, hw.2.1.symm, hp.1, hp.2.1, hp.2.2.1,
          hp.2.2.2.1, hp.2.2.2.2.1, hp.2.2.2.2.2.1⟩
    · rw [if_neg hle] at hw
      cases hmv : (if fhT.wroteSegment then Except.ok (fhT, ([] : List BackendOp))
                   else moveToSegment env fhT) with
      | error e =>
        rw [hmv] at hw
        exact absurd hw (by simp)
      | ok res1 =>
        obtain ⟨fh1, tr1⟩ := res1
        rw [hmv] at hw
        cases hini : env.initSegmentErr with
        | some e =>
          rw [hini] at hw
          exact absurd hw (by simp)
        | none =>
          rw [hini] at hw
          simp only [Except.ok.injEq, Prod.mk.injEq] at hw
          refine ⟨tr1 ++ [.initSegment fh1.target.csName
              (segmentPathFn fh1.segPfx (fh1.segmentID + 1)) data],
            rfl, ?_, hp.1, hp.2.1, hp.2.2.1, hp.2.2.2.1, hp.2.2.2.2.1,
            hp.2.2.2.2.2.1⟩
          rw [← hw.2.1]
          simp [List.append_assoc]

/-- Handle whose target path and store-object name diverge (as `moveObject`
leaves them after a rename), used by the C2 counterexample. -/
def c2fh : HandleState :=
  { target := { name := "f", path := "newpath", soName := "oldname", soBytes := 5,
                sh := [], cName := "c", csName := "cs", segmented := false,
                writing := false },
    rd := none, wdOpen := true, create := false, truncated := false, nonce := "",
    wroteSegment := false, segmentID := 0, uploaded := 0, segPfx := "", segPath := "" }

/-- Trace of the C2 counterexample write. -/
def c2tr : List BackendOp :=
  match handleWrite envOk c2fh [1] with
  | .ok r => r.2.1
  | .error _ => []

/-- C2 counterexample: `truncate` calls `newWriter` with the store-object name
(`fh.target.so.Name`), which differs from the target path after a rename
(`moveObject` updates only the node's `name`/`path`); the fresh backend
writer is opened at "oldname", not at the target path "newpath" — refuting
the claim's "opens a fresh backend writer at the target path". -/
theorem c2_write_truncate_counterexample :
    c2fh.target.path = "newpath" ∧ c2fh.create = false ∧ c2fh.truncated = false ∧
    c2tr = [.newWriter "c" "oldname", .wdWrite [1]] ∧
    ¬ BackendOp.newWriter "c" "newpath" ∈ c2tr := by decide

/-- Handle for the C2 witness: an existing, segmented target being
overwritten. -/
def c2fhW : HandleState :=
  { target := { name := "f", path := "p/f", soName := "p/f", soBytes := 9,
                sh := [(ManifestHeader, "cs/p/f/3")], cName := "c", csName := "cs",
                segmented := true, writing := false },
    rd := none, wdOpen := false, create := false, truncated := false, nonce := "",
    wroteSegment := false, segmentID := 0, uploaded := 0, segPfx := "", segPath := "" }

/-- Result handle of the C2 witness write. -/
def c2outW : HandleState :=
  match handleWrite envOk c2fhW [1, 2] with
  | .ok r => r.1
  | .error _ => c2fhW

/-- Trace of the C2 witness write. -/
def c2trAll : List BackendOp :=
  match handleWrite envOk c2fhW [1, 2] with
  | .ok r => r.2.1
  | .error _ => []

/-- Response size of the C2 witness write. -/
def c2nW : Nat :=
  match handleWrite envOk c2fhW [1, 2] with
  | .ok r => r.2.2
  | .error _ => 0

theorem c2_write_truncates_existing_witness :
    c2fhW.create = false ∧ c2fhW.truncated = false ∧
    ∃ fhT trT trRest,
      truncateFn envOk (setWriting c2fhW) = .ok (fhT, trT) ∧
      c2trAll = trT ++ trRest ∧
      fhT.truncated = true ∧ fhT.wdOpen = true ∧
      fhT.target.soBytes = 0 ∧ fhT.target.segmented = false ∧
      (c2fhW.target.segmented = true → hHas fhT.target.sh ManifestHeader = false) ∧
      trT = (if c2fhW.target.segmented then
               [.deleteSegmentsOp c2fhW.target.csName (hGet c2fhW.target.sh ManifestHeader)]
             else []) ++ [.newWriter c2fhW.target.cName c2fhW.target.soName] :=
  ⟨rfl, rfl,
   c2_write_truncates_existing envOk c2fhW c2outW [1, 2] c2trAll c2nW rfl rfl rfl⟩

/-- C1: a Write whose data would overflow the segment size on a handle that
has not yet written a segment closes the current writer and, via
`moveToSegment`, computes the segment prefix `<target.path>/<unix-epoch>`,
moves the bytes already uploaded from the data container at the target path
to the segments container at `segmentPath(prefix, segmentID)`, creates a
manifest at the original path whose manifest header value is
`<segments-container>/<prefix>`, marks the target segmented, and then opens
the next segment (incrementing the segment id) into which the data is
written. -/
theorem c1_write_first_segment (env : Env) (fh fh' : HandleState)
    (data : List Nat) (tr : List BackendOp) (n : Nat)
    (hover : env.segmentSize < fh.uploaded + data.length)
    (hseg : fh.wroteSegment = false)
    (hw : handleWrite env fh data = .ok (fh', tr, n)) :
    ∃ trPre,
      tr = trPre ++
        [.objectMove fh.target.cName fh.target.path fh.target.csName
           (segmentPathFn (fh.target.path ++ "/" ++ toString env.now) fh.segmentID),
         .createManifest fh.target.cName
           (fh.target.csName ++ "/" ++ (fh.target.path ++ "/" ++ toString env.now))
           fh.target.path,
         .initSegment fh.target.csName
           (segmentPathFn (fh.target.path ++ "/" ++ toString env.now) (fh.segmentID + 1))
           data] ∧
      fh'.target.segmented = true ∧ fh'.wroteSegment = true ∧
      fh'.segPfx = fh.target.path ++ "/" ++ toString env.now ∧
      fh'.segmentID = fh.segmentID + 1 ∧ fh'.wdOpen = true ∧ n = data.length := by
  unfold handleWrite at hw
  cases hws : writeTruncStep env (setWriting fh) with
  | error e =>
    rw [hws] at hw
    exact absurd hw (by simp)
  | ok res =>
    obtain ⟨fhT, tr0⟩ := res
    rw [hws] at hw
    dsimp only at hw
    obtain ⟨hu, hwseg, hid, hpath, hcn, hcsn, hpfx⟩ :=
      writeTruncStep_ok env (setWriting fh) fhT tr0 hws
    have hu2 : fhT.uploaded = fh.uploaded := hu
    have hwseg2 : fhT.wroteSegment = false := by
      rw [hwseg]
      exact hseg
    have hpath2 : fhT.target.path = fh.target.path := hpath
    have hcn2 : fhT.target.cName = fh.target.cName := hcn
    have hcsn2 : fhT.target.csName = fh.target.csName := hcsn
    have hid2 : fhT.segmentID = fh.segmentID := hid
    have hle : ¬ (fhT.uploaded + data.length ≤ env.segmentSize) := by
      rw [hu2]
      omega
    rw [if_neg hle, hwseg2] at hw
    simp only [Bool.false_eq_true, if_false, moveToSegment] at hw
    cases hmv : env.objectMoveErr with
    | some e =>
      rw [hmv] at hw
      exact absurd hw (by simp)
    | none =>
      rw [hmv] at hw
      dsimp only at hw
      cases hini : env.initSegmentErr with
      | some e =>
        rw [hini] at hw
        exact absurd hw (by simp)
      | none =>
        rw [hini] at hw
        simp only [Except.ok.injEq, Prod.mk.injEq] at hw
        obtain ⟨h1, h2, h3⟩ := hw
        refine ⟨tr0, ?_, ?_, ?_, ?_, ?_, ?_, h3.symm⟩
        · rw [← h2, hpath2, hcn2, hcsn2, hid2]
          simp [List.append_assoc]
        · rw [← h1]
        · rw [← h1]
        · rw [← h1]
          dsimp only
          rw [hpath2]
        · rw [← h1]
          dsimp only
          rw [hid2]
        · rw [← h1]

/-- Handle for the C1 scenario: 2 bytes already uploaded against a segment
size of 2, no segment written yet. -/
def c1fh : HandleState :=
  { target := { name := "f", path := "f", soName := "f", soBytes := 2, sh := [],
                cName := "c", csName := "cs", segmented := false, writing := false },
    rd := none, wdOpen := true, create := true, truncated := false, nonce := "",
    wroteSegment := false, segmentID := 0, uploaded := 2, segPfx := "", segPath := "" }

/-- Result handle of the C1 witness write. -/
def c1out : HandleState :=
  match handleWrite envOk c1fh [9] with
  | .ok r => r.1
  | .error _ => c1fh

/-- Trace of the C1 witness write. -/
def c1tr : List BackendOp :=
  match handleWrite envOk c1fh [9] with
  | .ok r => r.2.1
  | .error _ => []

/-- Response size of the C1 witness write. -/
def c1n : Nat :=
  match handleWrite envOk c1fh [9] with
  | .ok r => r.2.2
  | .error _ => 0

theorem c1_write_first_segment_witness :
    envOk.segmentSize < c1fh.uploaded + ([9] : List Nat).length ∧
    c1fh.wroteSegment = false ∧
    c1tr = [.objectMove "c" "f" "cs" "f/7/0", .createManifest "c" "cs/f/7" "f",
            .initSegment "cs" "f/7/1" [9]] ∧
    c1out.target.segmented = true ∧ c1out.wroteSegment = true ∧
    c1out.segPfx = "f/7" ∧ c1out.segmentID = 1 ∧ c1out.wdOpen = true ∧ c1n = 1 := by
  have h := c1_write_first_segment envOk c1fh c1out [9] c1tr c1n
    (by decide) (by decide) rfl
  obtain ⟨trPre, htr, h2, h3, h4, h5, h6, h7⟩ := h
  exact ⟨by decide, by decide, by decide, h2, h3, h4.trans (by decide), h5, h6, h7⟩

theorem rdStep_dirs_mono (env : Env) (d : DirState) (cc : ChangeCache)
    (acc : RdAcc) (o : SwiftObj) (x : String) (hx : x ∈ acc.dirs) :
    x ∈ (rdStep env d cc acc o).dirs := by
  cases h1 : isSymlink o d.path <;>
  cases h2 : isDirectory o d.path <;>
  by_cases h3 : isPseudoDirectory o d.path = true ∧
    trimSuf (trimPre o.name d.path) "/" ∉ acc.dirs <;>
  cases h4 : strIsSuf "/" o.name <;>
  cases h5 : isLargeObject o <;>
  cases h6 : ccGet cc d.cName o.name <;>
  cases h7 : env.extraAttr <;>
  simp [rdStep, rdFinish, rdExport, h1, h2, h3, h4, h5, h6, h7, hx]

theorem rdStep_dir_records (env : Env) (d : DirState) (cc : ChangeCache)
    (acc : RdAcc) (o : SwiftObj) (ho : isDirectory o d.path = true) :
    trimSuf (trimPre o.name d.path) "/" ∈ (rdStep env d cc acc o).dirs := by
  have hct : o.contentType = DirContentType := by
    have h := ho
    unfold isDirectory at h
    simp only [Bool.and_eq_true, beq_iff_eq] at h
    exact h.1.1
  have hs : isSymlink o d.path = false := by
    unfold isSymlink
    rw [hct]
    decide
  simp only [rdStep, hs, ho, Bool.false_eq_true, if_false, if_true]
  unfold rdFinish rdExport
  split
  · simp
  · simp

theorem foldl_rdStep_dirs_mono (env : Env) (d : DirState) (cc : ChangeCache)
    (L : List SwiftObj) (acc : RdAcc) (x : String) (hx : x ∈ acc.dirs) :
    x ∈ (L.foldl (rdStep env d cc) acc).dirs := by
  induction L generalizing acc with
  | nil => exact hx
  | cons a rest ih =>
    exact ih (rdStep env d cc acc a) (rdStep_dirs_mono env d cc acc a x hx)

theorem foldl_rdStep_dir_recorded (env : Env) (d : DirState) (cc : ChangeCache)
    (L : List SwiftObj) (acc : RdAcc) (e' : SwiftObj)
    (hmem : e' ∈ L) (hdir : isDirectory e' d.path = true) :
    trimSuf (trimPre e'.name d.path) "/" ∈ (L.foldl (rdStep env d cc) acc).dirs := by
  induction L generalizing acc with
  | nil => cases hmem
  | cons a rest ih =>
    rcases List.mem_cons.mp hmem with rfl | hmem2
    · exact foldl_rdStep_dirs_mono env d cc rest (rdStep env d cc acc e') _
        (rdStep_dir_records env d cc acc e' hdir)
    · exact ih (rdStep env d cc acc a) hmem2


theorem rdStep_pseudo_skip (env : Env) (d : DirState) (cc : ChangeCache)
    (acc : RdAcc) (e : SwiftObj)
    (hp : isPseudoDirectory e d.path = true) (hs : isSymlink e d.path = false)
    (hmem : acc.dirs.contains (trimSuf (trimPre e.name d.path) "/") = true) :
    rdStep env d cc acc e = acc := by
  have hp2 := hp
  unfold isPseudoDirectory at hp2
  simp only [Bool.and_eq_true] at hp2
  have hd : isDirectory e d.path = false := by
    unfold isDirectory
    rw [hp2.1.1]
    simp
  have hmem2 : trimSuf (trimPre e.name d.path) "/" ∈ acc.dirs :=
    List.elem_iff.mp hmem
  simp [rdStep, hs, hd, hp, hmem, hmem2, hp2.1.2]

/-- C5 (amended): an entry classified as a pseudo-directory whose short name
was already recorded by an earlier real directory marker in the same
listing is not materialized — processing it leaves the classification state
unchanged. Suppression is order-dependent: a marker occurring later in the
listing does not suppress an already-added pseudo-directory (see the
counterexample). -/
theorem c5_pseudo_suppressed_by_earlier_marker (env : Env) (d : DirState)
    (cc : ChangeCache) (L1 : List SwiftObj) (e : SwiftObj)
    (hp : isPseudoDirectory e d.path = true) (hs : isSymlink e d.path = false)
    (hd : ∃ e' ∈ L1, isDirectory e' d.path = true ∧
      trimSuf (trimPre e'.name d.path) "/" = trimSuf (trimPre e.name d.path) "/") :
    (L1 ++ [e]).foldl (rdStep env d cc) rdInit = L1.foldl (rdStep env d cc) rdInit := by
  rw [List.foldl_append]
  obtain ⟨e', hmem, hdir, hname⟩ := hd
  have h1 := foldl_rdStep_dir_recorded env d cc L1 rdInit e' hmem hdir
  rw [hname] at h1
  have h2 : (L1.foldl (rdStep env d cc) rdInit).dirs.contains
      (trimSuf (trimPre e.name d.path) "/") = true := by
    exact List.elem_iff.mpr h1
  simpa using rdStep_pseudo_skip env d cc (L1.foldl (rdStep env d cc) rdInit) e hp hs h2

/-- The backend-synthesized pseudo-directory entry "a/" used by C5. -/
def c5pseudo : SwiftObj :=
  { name := "a/", bytes := 0, contentType := "", pseudoDirectory := true }

/-- The explicit directory marker "a/" used by C5. -/
def c5marker : SwiftObj :=
  { name := "a/", bytes := 0, contentType := "application/directory",
    pseudoDirectory := false }

/-- Apex directory used by C5. -/
def c5d : DirState :=
  { name := "", path := "", soName := "", cName := "c", csName := "cs" }

/-- Environment listing the pseudo-directory before the real marker. -/
def c5envPM : Env := { envOk with listing := [c5pseudo, c5marker] }

/-- Environment listing the real marker before the pseudo-directory. -/
def c5envMP : Env := { envOk with listing := [c5marker, c5pseudo] }

/-- Direntries emitted when the pseudo-directory precedes the marker. -/
def c5dePM : List Dirent :=
  match (readDirAll c5envPM stEmpty c5d).1 with
  | .ok l => l
  | .error _ => []

/-- Direntries emitted when the marker precedes the pseudo-directory. -/
def c5deMP : List Dirent :=
  match (readDirAll c5envMP stEmpty c5d).1 with
  | .ok l => l
  | .error _ => []

/-- C5 counterexample: with the same two entries — a pseudo-directory "a/"
and a real directory marker "a/" — the pseudo-directory is materialized
(two direntries named "a" are emitted) when it precedes the marker, and
suppressed (one direntry) when it follows it. A real marker present in the
listing therefore does not prevent the pseudo-directory from being added;
only a marker processed earlier does, contradicting "regardless of the
order in which the backend returns the entries". -/
theorem c5_pseudo_order_counterexample :
    c5dePM = [{ name := "a", dtype := .dir }, { name := "a", dtype := .dir }] ∧
    c5deMP = [{ name := "a", dtype := .dir }] := by decide

theorem c5_pseudo_suppressed_by_earlier_marker_witness :
    isPseudoDirectory c5pseudo c5d.path = true ∧
    isSymlink c5pseudo c5d.path = false ∧
    isDirectory c5marker c5d.path = true ∧
    ([c5marker] ++ [c5pseudo]).foldl (rdStep c5envMP c5d []) rdInit =
      [c5marker].foldl (rdStep c5envMP c5d []) rdInit :=
  ⟨by decide, by decide, by decide,
   c5_pseudo_suppressed_by_earlier_marker c5envMP c5d [] [c5marker] c5pseudo
     (by decide) (by decide)
     ⟨c5marker, List.mem_singleton.mpr rfl, by decide, by decide⟩⟩

end Svfs
